import Mathlib

/-!
Shallow embedding of the Spacefalcon staking program
(`programs/staking/src/{lib.rs, context.rs, account.rs, utils.rs}`).

Machine integers are modelled as `Nat` with explicit bounds:
`checked_*` operations return `none` exactly when the Rust `checked_*`
call would return `None` (overflow past the width bound, underflow below
zero, division by zero).  A Rust `.unwrap()` on `None` aborts the
transaction; operations therefore return `Option`/`Except` values and
`none`/`.error` means the transaction fails with no state change.
Timestamps are `Nat` (the program converts `i64 -> u64` with
`try_into().unwrap()`, so a negative clock aborts; we model the
non-negative value directly).
-/

namespace Staking

/-- `u32::MAX`. -/
def U32MAX : Nat := 2 ^ 32 - 1

/-- `u64::MAX`. -/
def U64MAX : Nat := 2 ^ 64 - 1

/-- `u128::MAX`. -/
def U128MAX : Nat := 2 ^ 128 - 1

/-- `pub const PRECISION: u128 = u64::MAX as u128;` (lib.rs:20). -/
def PRECISION : Nat := U64MAX

/-- `pub const MIN_DURATION: u64 = 86400;` (lib.rs:21). -/
def MIN_DURATION : Nat := 86400

/-- Rust `checked_add` at width bound `m`: `none` iff the sum exceeds `m`. -/
def checkedAdd (m a b : Nat) : Option Nat :=
  if a + b ≤ m then some (a + b) else none

/-- Rust `checked_sub` on unsigned integers: `none` iff it would underflow. -/
def checkedSub (a b : Nat) : Option Nat :=
  if b ≤ a then some (a - b) else none

/-- Rust `checked_mul` at width bound `m`: `none` iff the product exceeds `m`. -/
def checkedMul (m a b : Nat) : Option Nat :=
  if a * b ≤ m then some (a * b) else none

/-- Rust `checked_div`: `none` iff the divisor is zero. -/
def checkedDiv (a b : Nat) : Option Nat :=
  if b = 0 then none else some (a / b)

/-- Rust `u128 -> u64` `try_into()`: `none` iff the value does not fit. -/
def toU64 (a : Nat) : Option Nat :=
  if a ≤ U64MAX then some a else none

/-- The `Pool` account (account.rs).  Pubkeys are modelled as `Nat`
(`Pubkey::default()` is `0`); the vault/mint references are owned by the
transfer collaborator and carry no core logic, so they are omitted. -/
structure Pool where
  authority : Nat
  paused : Bool
  reward_duration : Nat
  reward_duration_end : Nat
  lock_period : Nat
  last_update_time : Nat
  reward_rate : Nat
  reward_per_token_stored : Nat
  user_stake_count : Nat
  total_staked : Nat
  no_tier : Bool
  funders : List Nat
deriving Repr, DecidableEq

/-- The `User` account (account.rs); `pool`/`owner` back-references are kept
by the global state, `nonce` carries no logic. -/
structure User where
  reward_per_token_complete : Nat
  reward_per_token_pending : Nat
  balance_staked : Nat
  maturity_time : Nat
  tier : Nat
deriving Repr, DecidableEq

/-- Error taxonomy.  The variant names are those referenced from lib.rs and
context.rs (`error.rs` itself declares them); `Arithmetic` stands for an
aborting `.unwrap()` on a failed checked operation, `Constraint` for a
failing raw Anchor account constraint without a custom error code. -/
inductive Err where
  | DurationTooShort
  | PoolPaused
  | AmountMustBeGreaterThanZero
  | CannotStakeOrClaimBeforeMaturity
  | InsufficientFundUnstake
  | FunderAlreadyAuthorized
  | MaxFunders
  | CannotDeauthorizePoolAuthority
  | CannotDeauthorizeMissingAuthority
  | Unauthorized
  | Arithmetic
  | Constraint
deriving Repr, DecidableEq

/-- `last_time_reward_applicable` (lib.rs:54-56):
`min(unix_timestamp as u64, reward_duration_end)`. -/
def last_time_reward_applicable (reward_duration_end now : Nat) : Nat :=
  min now reward_duration_end

/-- `reward_per_token` (lib.rs:58-82): if `total_staked == 0` the stored
accumulator is returned unchanged, otherwise
`stored + (ltra - last_update_time) * reward_rate * PRECISION / total_staked`
with every step `checked` in `u128`. -/
def reward_per_token (total_staked rpts ltra lut rate : Nat) : Option Nat :=
  if total_staked = 0 then some rpts
  else
    match checkedSub ltra lut with
    | none => none
    | some d =>
      match checkedMul U128MAX d rate with
      | none => none
      | some m1 =>
        match checkedMul U128MAX m1 PRECISION with
        | none => none
        | some m2 =>
          match checkedDiv m2 total_staked with
          | none => none
          | some q => checkedAdd U128MAX rpts q

/-- `earned` (lib.rs:84-103):
`balance_staked * (reward_per_token - user_reward_per_token_paid) / PRECISION
 + user_reward_pending`, checked in `u128`, converted back to `u64`. -/
def earned (balance_staked rpt complete pending : Nat) : Option Nat :=
  match checkedSub rpt complete with
  | none => none
  | some d =>
    match checkedMul U128MAX balance_staked d with
    | none => none
    | some m =>
      match checkedDiv m PRECISION with
      | none => none
      | some q =>
        match checkedAdd U128MAX q pending with
        | none => none
        | some s => toU64 s

/-- `update_rewards` (lib.rs:23-52): checkpoint the pool's accumulator at
`min(now, reward_duration_end)` and, when a user is supplied, snapshot the
user's pending reward against the new accumulator. -/
def update_rewards (p : Pool) (u : Option User) (total_staked now : Nat) :
    Option (Pool × Option User) :=
  match reward_per_token total_staked p.reward_per_token_stored
      (last_time_reward_applicable p.reward_duration_end now)
      p.last_update_time p.reward_rate with
  | none => none
  | some rpts =>
    let p1 : Pool := { p with
      reward_per_token_stored := rpts,
      last_update_time := last_time_reward_applicable p.reward_duration_end now }
    match u with
    | none => some (p1, none)
    | some u0 =>
      match earned u0.balance_staked rpts u0.reward_per_token_complete
          u0.reward_per_token_pending with
      | none => none
      | some pend =>
        some (p1, some { u0 with
          reward_per_token_pending := pend,
          reward_per_token_complete := rpts })

/-- Modelled from the spec: the workspace build manifest fixing the
`overflow-checks` profile is not under `src/`; the spec (§7, §9: "All other
numeric failures are fatal to the transaction", "do not rely on native-width
wraparound") states that the native `u64` addition `pool.total_staked += amount`
(lib.rs:215) aborts the transaction on overflow, so it is modelled as a
checked addition. -/
def nativeAdd64 (a b : Nat) : Option Nat :=
  checkedAdd U64MAX a b

/-- Modelled from the spec: the workspace build manifest fixing the
`overflow-checks` profile is not under `src/`; the spec (§7, §9) states that
the native `u64` subtraction `pool.total_staked -= spt_amount` (lib.rs:250)
aborts the transaction on underflow, so it is modelled as a checked
subtraction. -/
def nativeSub64 (a b : Nat) : Option Nat :=
  checkedSub a b

/-- Modelled from the spec: the `TIER_INFO` threshold constants live in
`constants.rs`, which is not under `src/`; the spec (§8) exercises the tier
classifier with the ascending thresholds `[100, 1000, 10000]`. -/
def TIER_INFO : List Nat := [100, 1000, 10000]

/-- The loop body of `get_tier` (utils.rs:3-11): index of the first threshold
strictly greater than `amount`, or the list length when none is. -/
def tierIdx (amount : Nat) : List Nat → Nat
  | [] => 0
  | x :: rest => if amount < x then 0 else 1 + tierIdx amount rest

/-- `get_tier` (utils.rs:3-11). -/
def get_tier (amount : Nat) : Nat :=
  tierIdx amount TIER_INFO

/-- `initialize_pool` (lib.rs:109-140): rejects a reward duration below
`MIN_DURATION`, otherwise produces the fresh pool record.  The `funders`
array stays at the zeroed account contents (`Pubkey::default()` five times). -/
def initialize_pool (authority reward_duration lock_period : Nat)
    (no_tier : Bool) : Except Err Pool :=
  if reward_duration < MIN_DURATION then .error .DurationTooShort
  else .ok {
    authority := authority
    paused := false
    reward_duration := reward_duration
    reward_duration_end := 0
    lock_period := lock_period
    last_update_time := 0
    reward_rate := 0
    reward_per_token_stored := 0
    user_stake_count := 0
    total_staked := 0
    no_tier := no_tier
    funders := List.replicate 5 0 }

/-- `create_user` (lib.rs:142-157) together with its account constraint
`!pool.paused @ ErrorCode::PoolPaused` (context.rs:55): produces the zeroed
user record and increments `user_stake_count` (checked `u32`). -/
def create_user (p : Pool) : Except Err (Pool × User) :=
  if p.paused then .error .PoolPaused
  else
    match checkedAdd U32MAX p.user_stake_count 1 with
    | none => .error .Arithmetic
    | some c =>
      .ok ({ p with user_stake_count := c },
        { reward_per_token_complete := 0
          reward_per_token_pending := 0
          balance_staked := 0
          maturity_time := 0
          tier := 0 })

/-- `pause` (lib.rs:159-164) with the `Pause` account constraints
(context.rs:76-85): requires not already paused and
`reward_duration_end < now`. -/
def pause (p : Pool) (now : Nat) : Except Err Pool :=
  if p.paused then .error .PoolPaused
  else if p.reward_duration_end < now then .ok { p with paused := true }
  else .error .Constraint

/-- `unpause` (lib.rs:166-170) with the `Unpause` constraint `pool.paused`
(context.rs:92). -/
def unpause (p : Pool) : Except Err Pool :=
  if p.paused then .ok { p with paused := false }
  else .error .Constraint

/-- `stake` (lib.rs:172-218): zero-amount and paused guards, checkpoint with
the user, checked updates of the user's balance and maturity, optional
re-tiering, then `pool.total_staked += amount` (see `nativeAdd64`).  The
token transfer moves `amount` into the staking vault and touches no pool or
user field. -/
def stake (p : Pool) (u : User) (amount now : Nat) : Except Err (Pool × User) :=
  if amount = 0 then .error .AmountMustBeGreaterThanZero
  else if p.paused then .error .PoolPaused
  else
    match update_rewards p (some u) p.total_staked now with
    | some (p1, some u1) =>
      match checkedAdd U64MAX u1.balance_staked amount with
      | none => .error .Arithmetic
      | some bal =>
        match checkedAdd U64MAX now p.lock_period with
        | none => .error .Arithmetic
        | some mat =>
          let u2 : User := { u1 with balance_staked := bal, maturity_time := mat }
          let u3 : User := if p.no_tier = false then { u2 with tier := get_tier bal } else u2
          match nativeAdd64 p1.total_staked amount with
          | none => .error .Arithmetic
          | some t => .ok ({ p1 with total_staked := t }, u3)
    | _ => .error .Arithmetic

/-- `unstake` (lib.rs:220-270): zero-amount, maturity and balance guards,
checkpoint with the user, checked decrease of the user's balance, optional
re-tiering, then `pool.total_staked -= spt_amount` (see `nativeSub64`).  The
transfer pays `spt_amount` back to the staker and touches no pool or user
field. -/
def unstake (p : Pool) (u : User) (amount now : Nat) : Except Err (Pool × User) :=
  if amount = 0 then .error .AmountMustBeGreaterThanZero
  else if u.maturity_time > now then .error .CannotStakeOrClaimBeforeMaturity
  else if u.balance_staked < amount then .error .InsufficientFundUnstake
  else
    match update_rewards p (some u) p.total_staked now with
    | some (p1, some u1) =>
      match checkedSub u1.balance_staked amount with
      | none => .error .Arithmetic
      | some bal =>
        let u2 : User := { u1 with balance_staked := bal }
        let u3 : User := if p.no_tier = false then { u2 with tier := get_tier bal } else u2
        match nativeSub64 p1.total_staked amount with
        | none => .error .Arithmetic
        | some t => .ok ({ p1 with total_staked := t }, u3)
    | _ => .error .Arithmetic

/-- `fund` (lib.rs:302-346) with the `Fund` account constraints
(context.rs:153-184): the pool must not be paused and the funder must be the
authority or an entry of `funders`; then a pool-only checkpoint, the
reward-rate recomputation, and the epoch reset.  The second component of the
result is the amount moved into the reward vault (the `amount > 0` transfer
guard). -/
def fund (p : Pool) (funder amount now : Nat) : Except Err (Pool × Nat) :=
  if p.paused then .error .PoolPaused
  else if funder = p.authority ∨ funder ∈ p.funders then
    match update_rewards p none p.total_staked now with
    | some (p1, _) =>
      let rateOpt : Option Nat :=
        if now ≥ p1.reward_duration_end then
          checkedDiv amount p1.reward_duration
        else
          match checkedSub p1.reward_duration_end now with
          | none => none
          | some remaining =>
            match checkedMul U64MAX remaining p1.reward_rate with
            | none => none
            | some leftover =>
              match checkedAdd U64MAX amount leftover with
              | none => none
              | some s => checkedDiv s p1.reward_duration
      match rateOpt with
      | none => .error .Arithmetic
      | some rate =>
        match checkedAdd U64MAX now p1.reward_duration with
        | none => .error .Arithmetic
        | some dend =>
          .ok ({ p1 with
              reward_rate := rate
              last_update_time := now
              reward_duration_end := dend },
            if amount > 0 then amount else 0)
    | _ => .error .Arithmetic
  else .error .Unauthorized

/-- `claim` (lib.rs:348-386): maturity guard, checkpoint with the user, then
if the checkpointed pending reward is positive it is zeroed and the payout
(third component) is clamped to the reward vault's balance; otherwise nothing
is paid. -/
def claim (p : Pool) (u : User) (vault_balance now : Nat) :
    Except Err (Pool × User × Nat) :=
  if u.maturity_time > now then .error .CannotStakeOrClaimBeforeMaturity
  else
    match update_rewards p (some u) p.total_staked now with
    | some (p1, some u1) =>
      if u1.reward_per_token_pending > 0 then
        let r0 := u1.reward_per_token_pending
        let r := if vault_balance < r0 then vault_balance else r0
        .ok (p1, { u1 with reward_per_token_pending := 0 }, r)
      else .ok (p1, u1, 0)
    | _ => .error .Arithmetic

/-- Replace the first occurrence of `target` in the list (the
`iter().position` + index-assignment pattern of lib.rs:281-282, 294-295). -/
def replaceFirst : List Nat → Nat → Nat → List Nat
  | [], _, _ => []
  | x :: rest, target, repl =>
    if x = target then repl :: rest else x :: replaceFirst rest target repl

/-- `authorize_funder` (lib.rs:272-287): rejects the pool authority and
duplicates, writes the candidate into the first sentinel (`Pubkey::default()`,
modelled `0`) slot, fails with `MaxFunders` when none is free. -/
def authorize_funder (p : Pool) (funder_to_add : Nat) : Except Err Pool :=
  if funder_to_add = p.authority then .error .FunderAlreadyAuthorized
  else if funder_to_add ∈ p.funders then .error .FunderAlreadyAuthorized
  else if 0 ∈ p.funders then
    .ok { p with funders := replaceFirst p.funders 0 funder_to_add }
  else .error .MaxFunders

/-- `deauthorize_funder` (lib.rs:289-300): rejects the pool authority,
overwrites the found slot with the sentinel, fails when absent. -/
def deauthorize_funder (p : Pool) (funder_to_remove : Nat) : Except Err Pool :=
  if funder_to_remove = p.authority then .error .CannotDeauthorizePoolAuthority
  else if funder_to_remove ∈ p.funders then
    .ok { p with funders := replaceFirst p.funders funder_to_remove 0 }
  else .error .CannotDeauthorizeMissingAuthority

/-- `close_user` (lib.rs:388-392) with the `CloseUser` constraints
(context.rs:231-250): the user's balance and pending reward must be zero;
`user_stake_count` is decremented (checked). -/
def close_user (p : Pool) (u : User) : Except Err Pool :=
  if u.balance_staked = 0 ∧ u.reward_per_token_pending = 0 then
    match checkedSub p.user_stake_count 1 with
    | none => .error .Arithmetic
    | some c => .ok { p with user_stake_count := c }
  else .error .Constraint

/-- The `ClosePool` account constraints (context.rs:252-288): paused, a
strictly positive and fully elapsed funding epoch, no open users, nothing
staked.  The handler itself only sweeps the vaults. -/
def close_pool (p : Pool) (now : Nat) : Except Err Unit :=
  if p.paused = true ∧ 0 < p.reward_duration_end ∧ p.reward_duration_end < now
      ∧ p.user_stake_count = 0 ∧ p.total_staked = 0 then .ok ()
  else .error .Constraint

/-- Concrete pool used by the `C1` witness: rate 2, epoch ending at 100,
accumulator 0, checkpointed at 0. -/
def pC1 : Pool :=
  { authority := 1, paused := false, reward_duration := 86400,
    reward_duration_end := 100, lock_period := 0, last_update_time := 0,
    reward_rate := 2, reward_per_token_stored := 0, user_stake_count := 1,
    total_staked := 10, no_tier := true, funders := List.replicate 5 0 }

/-- Concrete user used by the `C1` witness. -/
def uC1 : User :=
  { reward_per_token_complete := 0, reward_per_token_pending := 7,
    balance_staked := 3, maturity_time := 0, tier := 0 }

/-- Pool produced by the `C6` witness call
`fund pC1 1 86400 200`: the prior epoch (ending at 100) has elapsed. -/
def pC6 : Pool :=
  { pC1 with reward_per_token_stored := 20 * PRECISION,
             last_update_time := 200, reward_rate := 1,
             reward_duration_end := 86600 }

/-- Concrete pool used by the `C5` witness: `total_staked` is at the `u64`
ceiling, so staking one more unit overflows the pool total. -/
def pC5 : Pool := { pC1 with total_staked := U64MAX }

/-- Concrete pool used by the `C7` witness: nothing staked, so the
checkpoint leaves the accumulator at 0 and the user's pending reward at its
stored 500 while the vault holds only 300. -/
def pC7 : Pool := { pC1 with total_staked := 0 }

/-- Concrete user for the `C7` witness: pending reward 500. -/
def uC7 : User :=
  { reward_per_token_complete := 0, reward_per_token_pending := 500,
    balance_staked := 0, maturity_time := 0, tier := 0 }

/-- Concrete paused pool used by the `C8` witness. -/
def pC8 : Pool := { pC1 with paused := true }

/-- Concrete pool used by the `C10` witness: active epoch ending at 50000,
rate 2, funded again with 0 at `now = 10000`. -/
def pC10 : Pool := { pC1 with reward_duration_end := 50000 }

/-- The global on-chain state of one staking campaign: the pool record, the
open user records keyed by owner, and whether the pool account has been
closed. -/
structure GState where
  pool : Pool
  users : List (Nat × User)
  closed : Bool

/-- Sum of `balance_staked` over all open user records. -/
def sumBalances (l : List (Nat × User)) : Nat :=
  (l.map (fun e => e.2.balance_staked)).sum

/-- One transition per entry point of the program (the pool-record slice of
`initialize_pool` is the base case of `Reachable`, `close_pool` flips the
`closed` flag; the remaining ten handlers mutate the pool and at most one
user).  A user-record update selects the record by an explicit list split,
and every transition requires the pool account to still exist.  Token
transfers move vault balances only and touch no pool or user record. -/
inductive Step : GState → GState → Prop where
  | createUserStep (s : GState) (owner : Nat) (p' : Pool) (u : User)
      (hc : s.closed = false)
      (hfresh : ∀ e ∈ s.users, e.1 ≠ owner)
      (hop : create_user s.pool = .ok (p', u)) :
      Step s ⟨p', (owner, u) :: s.users, false⟩
  | pauseStep (s : GState) (now : Nat) (p' : Pool)
      (hc : s.closed = false)
      (hop : pause s.pool now = .ok p') :
      Step s ⟨p', s.users, false⟩
  | unpauseStep (s : GState) (p' : Pool)
      (hc : s.closed = false)
      (hop : unpause s.pool = .ok p') :
      Step s ⟨p', s.users, false⟩
  | stakeStep (s : GState) (owner amount now : Nat)
      (l1 l2 : List (Nat × User)) (u : User) (p' : Pool) (u' : User)
      (hc : s.closed = false)
      (hu : s.users = l1 ++ (owner, u) :: l2)
      (hop : stake s.pool u amount now = .ok (p', u')) :
      Step s ⟨p', l1 ++ (owner, u') :: l2, false⟩
  | unstakeStep (s : GState) (owner amount now : Nat)
      (l1 l2 : List (Nat × User)) (u : User) (p' : Pool) (u' : User)
      (hc : s.closed = false)
      (hu : s.users = l1 ++ (owner, u) :: l2)
      (hop : unstake s.pool u amount now = .ok (p', u')) :
      Step s ⟨p', l1 ++ (owner, u') :: l2, false⟩
  | claimStep (s : GState) (owner vb now payout : Nat)
      (l1 l2 : List (Nat × User)) (u : User) (p' : Pool) (u' : User)
      (hc : s.closed = false)
      (hu : s.users = l1 ++ (owner, u) :: l2)
      (hop : claim s.pool u vb now = .ok (p', u', payout)) :
      Step s ⟨p', l1 ++ (owner, u') :: l2, false⟩
  | authorizeFunderStep (s : GState) (cand : Nat) (p' : Pool)
      (hc : s.closed = false)
      (hop : authorize_funder s.pool cand = .ok p') :
      Step s ⟨p', s.users, false⟩
  | deauthorizeFunderStep (s : GState) (cand : Nat) (p' : Pool)
      (hc : s.closed = false)
      (hop : deauthorize_funder s.pool cand = .ok p') :
      Step s ⟨p', s.users, false⟩
  | fundStep (s : GState) (funder amount now tr : Nat) (p' : Pool)
      (hc : s.closed = false)
      (hop : fund s.pool funder amount now = .ok (p', tr)) :
      Step s ⟨p', s.users, false⟩
  | closeUserStep (s : GState) (owner : Nat)
      (l1 l2 : List (Nat × User)) (u : User) (p' : Pool)
      (hc : s.closed = false)
      (hu : s.users = l1 ++ (owner, u) :: l2)
      (hop : close_user s.pool u = .ok p') :
      Step s ⟨p', l1 ++ l2, false⟩
  | closePoolStep (s : GState) (now : Nat)
      (hc : s.closed = false)
      (hop : close_pool s.pool now = .ok ()) :
      Step s ⟨s.pool, s.users, true⟩

/-- States reachable from a freshly initialized pool by any sequence of
entry-point operations. -/
inductive Reachable : GState → Prop where
  | init (authority reward_duration lock_period : Nat) (nt : Bool) (p : Pool)
      (h : initialize_pool authority reward_duration lock_period nt = .ok p) :
      Reachable ⟨p, [], false⟩
  | step (s s' : GState) (hs : Reachable s) (h : Step s s') : Reachable s'

/-- Freshly initialized pool used by the `C2` and `C3` witnesses. -/
def pInit : Pool :=
  { authority := 1, paused := false, reward_duration := 86400,
    reward_duration_end := 0, lock_period := 100, last_update_time := 0,
    reward_rate := 0, reward_per_token_stored := 0, user_stake_count := 0,
    total_staked := 0, no_tier := false, funders := List.replicate 5 0 }

theorem checkedAdd_eq_some {m a b c : Nat} :
    checkedAdd m a b = some c ↔ a + b ≤ m ∧ a + b = c := by
  unfold checkedAdd; split <;> simp_all

theorem checkedSub_eq_some {a b c : Nat} :
    checkedSub a b = some c ↔ b ≤ a ∧ a - b = c := by
  unfold checkedSub; split <;> simp_all

theorem checkedMul_eq_some {m a b c : Nat} :
    checkedMul m a b = some c ↔ a * b ≤ m ∧ a * b = c := by
  unfold checkedMul; split <;> simp_all

theorem checkedDiv_eq_some {a b c : Nat} :
    checkedDiv a b = some c ↔ b ≠ 0 ∧ a / b = c := by
  unfold checkedDiv; split <;> simp_all

theorem toU64_eq_some {a c : Nat} :
    toU64 a = some c ↔ a ≤ U64MAX ∧ a = c := by
  unfold toU64; split <;> simp_all

/-- Successful `reward_per_token`: the result is the stored accumulator when
nothing is staked, and the stored accumulator plus the PRECISION-scaled
increment otherwise; in both cases it is at least the stored accumulator. -/
theorem reward_per_token_some {t rpts ltra lut rate r : Nat}
    (h : reward_per_token t rpts ltra lut rate = some r) :
    rpts ≤ r ∧
    (t = 0 → r = rpts) ∧
    (t ≠ 0 → lut ≤ ltra ∧ r = rpts + (ltra - lut) * rate * PRECISION / t) := by
  unfold reward_per_token at h
  split at h
  · rename_i ht
    cases h
    exact ⟨le_refl _, fun _ => rfl, fun h0 => absurd ht h0⟩
  · split at h
    · cases h
    · split at h
      · cases h
      · split at h
        · cases h
        · split at h
          · cases h
          · rename_i hnz xa d hda xb m1 hm1 xc m2 hm2 xd q hq
            obtain ⟨hle, hdE⟩ := checkedSub_eq_some.mp hda
            obtain ⟨_, hm1E⟩ := checkedMul_eq_some.mp hm1
            obtain ⟨_, hm2E⟩ := checkedMul_eq_some.mp hm2
            obtain ⟨_, hqE⟩ := checkedDiv_eq_some.mp hq
            obtain ⟨_, hrE⟩ := checkedAdd_eq_some.mp h
            subst hdE hm1E hm2E hqE hrE
            exact ⟨Nat.le_add_right _ _, fun h0 => absurd h0 hnz,
              fun _ => ⟨hle, rfl⟩⟩

/-- Successful `earned`: the user's snapshot does not exceed the accumulator,
and the result is the claim formula, which fits in `u64`. -/
theorem earned_some {bal rpt complete pending e : Nat}
    (h : earned bal rpt complete pending = some e) :
    complete ≤ rpt ∧ e = bal * (rpt - complete) / PRECISION + pending ∧
      e ≤ U64MAX := by
  unfold earned at h
  split at h
  · cases h
  · split at h
    · cases h
    · split at h
      · cases h
      · split at h
        · cases h
        · rename_i xa d hd xb m hm xc q hq xd s hs
          obtain ⟨hle, hdE⟩ := checkedSub_eq_some.mp hd
          obtain ⟨_, hmE⟩ := checkedMul_eq_some.mp hm
          obtain ⟨_, hqE⟩ := checkedDiv_eq_some.mp hq
          obtain ⟨hsB, hsE⟩ := checkedAdd_eq_some.mp hs
          obtain ⟨heB, heE⟩ := toU64_eq_some.mp h
          subst hdE hmE hqE hsE heE
          exact ⟨hle, rfl, heB⟩

/-- Full characterization of a successful `update_rewards`. -/
theorem update_rewards_char {p : Pool} {u? : Option User} {t now : Nat}
    {p' : Pool} {u?' : Option User}
    (h : update_rewards p u? t now = some (p', u?')) :
    ∃ r, reward_per_token t p.reward_per_token_stored
        (min now p.reward_duration_end) p.last_update_time p.reward_rate
        = some r ∧
      p' = { p with reward_per_token_stored := r,
                    last_update_time := min now p.reward_duration_end } ∧
      ((u? = none ∧ u?' = none) ∨
        (∃ u0 pend, u? = some u0 ∧
          earned u0.balance_staked r u0.reward_per_token_complete
            u0.reward_per_token_pending = some pend ∧
          u?' = some { u0 with reward_per_token_pending := pend,
                               reward_per_token_complete := r })) := by
  unfold update_rewards last_time_reward_applicable at h
  split at h
  · cases h
  · rename_i xa r hr
    split at h
    · cases h
      exact ⟨r, hr, rfl, Or.inl ⟨rfl, rfl⟩⟩
    · rename_i u0
      split at h
      · cases h
      · rename_i xb pend hpend
        cases h
        exact ⟨r, hr, rfl, Or.inr ⟨u0, pend, rfl, hpend, rfl⟩⟩

/-- `update_rewards` changes only the accumulator/checkpoint fields of the
pool and only the reward-snapshot fields of the user; the accumulator never
decreases. -/
theorem update_rewards_preserves {p : Pool} {u? : Option User} {t now : Nat}
    {p' : Pool} {u?' : Option User}
    (h : update_rewards p u? t now = some (p', u?')) :
    p'.authority = p.authority ∧ p'.paused = p.paused ∧
    p'.reward_duration = p.reward_duration ∧
    p'.reward_duration_end = p.reward_duration_end ∧
    p'.lock_period = p.lock_period ∧ p'.reward_rate = p.reward_rate ∧
    p'.user_stake_count = p.user_stake_count ∧
    p'.total_staked = p.total_staked ∧ p'.no_tier = p.no_tier ∧
    p'.funders = p.funders ∧
    p.reward_per_token_stored ≤ p'.reward_per_token_stored ∧
    ∀ u0, u? = some u0 → ∃ u1, u?' = some u1 ∧
      u1.balance_staked = u0.balance_staked ∧
      u1.maturity_time = u0.maturity_time ∧ u1.tier = u0.tier := by
  obtain ⟨r, hr, hp, hu⟩ := update_rewards_char h
  subst hp
  refine ⟨rfl, rfl, rfl, rfl, rfl, rfl, rfl, rfl, rfl, rfl,
    (reward_per_token_some hr).1, ?_⟩
  intro u0 hu0
  rcases hu with ⟨h1, _⟩ | ⟨u0', pend, he1, _, he3⟩
  · rw [h1] at hu0
    cases hu0
  · subst he1
    cases hu0
    exact ⟨_, he3, rfl, rfl, rfl⟩

/-- C1: for every pool state and optional user record, a successful
checkpoint (`update_rewards`) computes
`effective_time = min(now, reward_duration_end)`; if `total_staked = 0` it
leaves `reward_per_token_stored` unchanged, otherwise it adds
`(effective_time - last_update_time) * reward_rate * PRECISION / total_staked`
(`PRECISION = 2^64 - 1`, checked 128-bit intermediates) to it; it sets
`last_update_time = effective_time`; and for a supplied user it sets the
pending reward to
`balance_staked * (new stored - reward_per_token_complete) / PRECISION`
plus the previous pending amount and snapshots `reward_per_token_complete`
to the new stored value. -/
theorem C1_update_rewards_checkpoint (p : Pool) (u? : Option User)
    (total now : Nat) (p' : Pool) (u?' : Option User)
    (h : update_rewards p u? total now = some (p', u?')) :
    p'.last_update_time = min now p.reward_duration_end ∧
    (total = 0 → p'.reward_per_token_stored = p.reward_per_token_stored) ∧
    (total ≠ 0 → p'.reward_per_token_stored = p.reward_per_token_stored +
      (min now p.reward_duration_end - p.last_update_time) * p.reward_rate
        * PRECISION / total) ∧
    (∀ u0, u? = some u0 → ∃ u1, u?' = some u1 ∧
      u1.reward_per_token_pending =
        u0.balance_staked
            * (p'.reward_per_token_stored - u0.reward_per_token_complete)
            / PRECISION
          + u0.reward_per_token_pending ∧
      u1.reward_per_token_complete = p'.reward_per_token_stored) := by
  obtain ⟨r, hr, hp, hu⟩ := update_rewards_char h
  obtain ⟨hge, h0, hnz⟩ := reward_per_token_some hr
  subst hp
  refine ⟨rfl, fun ht => h0 ht, fun ht => (hnz ht).2, ?_⟩
  intro u0 hu0
  rcases hu with ⟨h1, _⟩ | ⟨u0', pend, he1, he2, he3⟩
  · rw [h1] at hu0
    cases hu0
  · subst he1
    cases hu0
    obtain ⟨hle, hpend, _⟩ := earned_some he2
    exact ⟨_, he3, hpend, rfl⟩

theorem C1_update_rewards_checkpoint_witness :
    ({ pC1 with reward_per_token_stored := 10 * PRECISION,
                last_update_time := 50 } : Pool).last_update_time
        = min 50 pC1.reward_duration_end ∧
    ((10 : Nat) = 0 →
      ({ pC1 with reward_per_token_stored := 10 * PRECISION,
                  last_update_time := 50 } : Pool).reward_per_token_stored
        = pC1.reward_per_token_stored) ∧
    ((10 : Nat) ≠ 0 →
      ({ pC1 with reward_per_token_stored := 10 * PRECISION,
                  last_update_time := 50 } : Pool).reward_per_token_stored
        = pC1.reward_per_token_stored +
          (min 50 pC1.reward_duration_end - pC1.last_update_time)
            * pC1.reward_rate * PRECISION / 10) ∧
    (∀ u0, some uC1 = some u0 → ∃ u1,
      some ({ uC1 with reward_per_token_pending := 37,
                       reward_per_token_complete := 10 * PRECISION } : User)
        = some u1 ∧
      u1.reward_per_token_pending =
        u0.balance_staked
            * (({ pC1 with reward_per_token_stored := 10 * PRECISION,
                           last_update_time := 50 } : Pool).reward_per_token_stored
               - u0.reward_per_token_complete) / PRECISION
          + u0.reward_per_token_pending ∧
      u1.reward_per_token_complete =
        ({ pC1 with reward_per_token_stored := 10 * PRECISION,
                    last_update_time := 50 } : Pool).reward_per_token_stored) :=
  C1_update_rewards_checkpoint pC1 (some uC1) 10 50
    ({ pC1 with reward_per_token_stored := 10 * PRECISION,
                last_update_time := 50 })
    (some ({ uC1 with reward_per_token_pending := 37,
                      reward_per_token_complete := 10 * PRECISION }))
    (by decide)

/-- C4 counterexample: on a concrete paused pool (otherwise healthy),
`create_user` fails with `PoolPaused` — the `CreateUser` account constraint
`!pool.paused @ ErrorCode::PoolPaused` (context.rs:55) rejects it, so the
claim that `create_user` succeeds while the pool is paused is false. -/
theorem C4_create_user_paused_counterexample :
    create_user { pC1 with paused := true } = .error Err.PoolPaused := rfl

/-- C4 (amended): `create_user` succeeds only while the pool is not paused;
when `paused = false` (and the user counter does not overflow) it succeeds
and increments `user_stake_count` by one. -/
theorem C4_create_user_unpaused (p : Pool)
    (hp : p.paused = false) (hc : p.user_stake_count + 1 ≤ U32MAX) :
    ∃ p' u, create_user p = .ok (p', u) ∧
      p'.user_stake_count = p.user_stake_count + 1 := by
  refine ⟨{ p with user_stake_count := p.user_stake_count + 1 },
    { reward_per_token_complete := 0, reward_per_token_pending := 0,
      balance_staked := 0, maturity_time := 0, tier := 0 }, ?_, rfl⟩
  unfold create_user
  rw [hp, checkedAdd_eq_some.mpr ⟨hc, rfl⟩]
  simp

theorem C4_create_user_unpaused_witness :
    ∃ p' u, create_user pC1 = .ok (p', u) ∧
      p'.user_stake_count = pC1.user_stake_count + 1 :=
  C4_create_user_unpaused pC1 rfl (by decide)

/-- C6: a successful authorized `fund(pool, amount)` at time `now` sets
`reward_rate = amount / reward_duration` when the prior epoch has elapsed
(`now >= reward_duration_end`), and
`reward_rate = (amount + (reward_duration_end - now) * reward_rate) /
reward_duration` otherwise; in both cases it then sets
`last_update_time = now` and `reward_duration_end = now + reward_duration`. -/
theorem C6_fund_schedule (p : Pool) (funder amount now : Nat)
    (p' : Pool) (tr : Nat)
    (h : fund p funder amount now = .ok (p', tr)) :
    (now ≥ p.reward_duration_end →
      p'.reward_rate = amount / p.reward_duration) ∧
    (now < p.reward_duration_end →
      p'.reward_rate =
        (amount + (p.reward_duration_end - now) * p.reward_rate)
          / p.reward_duration) ∧
    p'.last_update_time = now ∧
    p'.reward_duration_end = now + p.reward_duration := by
  unfold fund at h
  split at h
  · cases h
  · split at h
    · split at h
      · rename_i xup p1 uu hup
        obtain ⟨-, -, hdur, hend, -, hrate, -, -, -, -, -, -⟩ :=
          update_rewards_preserves hup
        dsimp only at h
        split at h
        · cases h
        · rename_i xr rate hrOpt
          split at h
          · cases h
          · rename_i xd dend hd
            cases h
            obtain ⟨-, hdendE⟩ := checkedAdd_eq_some.mp hd
            rw [hdur] at hdendE
            split at hrOpt
            · rename_i hge
              rw [hend] at hge
              obtain ⟨hd0, hdE⟩ := checkedDiv_eq_some.mp hrOpt
              rw [hdur] at hdE
              exact ⟨fun _ => hdE.symm, fun hlt => absurd hge (by omega),
                rfl, hdendE.symm⟩
            · rename_i hge
              rw [hend] at hge
              split at hrOpt
              · cases hrOpt
              · rename_i xrem remaining hrem
                split at hrOpt
                · cases hrOpt
                · rename_i xlo leftover hlo
                  split at hrOpt
                  · cases hrOpt
                  · rename_i xs s hs
                    obtain ⟨hrle, hremE⟩ := checkedSub_eq_some.mp hrem
                    obtain ⟨-, hloE⟩ := checkedMul_eq_some.mp hlo
                    obtain ⟨-, hsE⟩ := checkedAdd_eq_some.mp hs
                    obtain ⟨hd0, hrateE⟩ := checkedDiv_eq_some.mp hrOpt
                    rw [hend] at hremE
                    rw [hrate] at hloE
                    rw [hdur] at hrateE
                    refine ⟨fun hge2 => absurd hge2 (by omega),
                      fun _ => ?_, rfl, hdendE.symm⟩
                    rw [← hrateE, ← hsE, ← hloE, hremE]
      · rename_i hne
        cases h
    · cases h

theorem C6_fund_schedule_witness :
    (200 ≥ pC1.reward_duration_end →
      pC6.reward_rate = 86400 / pC1.reward_duration) ∧
    (200 < pC1.reward_duration_end →
      pC6.reward_rate =
        (86400 + (pC1.reward_duration_end - 200) * pC1.reward_rate)
          / pC1.reward_duration) ∧
    pC6.last_update_time = 200 ∧
    pC6.reward_duration_end = 200 + pC1.reward_duration :=
  C6_fund_schedule pC1 1 86400 200 pC6 86400 rfl

/-- Characterization of a successful `stake`. -/
theorem stake_ok_char {p : Pool} {u : User} {amount now : Nat}
    {p' : Pool} {u' : User} (h : stake p u amount now = .ok (p', u')) :
    amount ≠ 0 ∧ p.paused = false ∧
    ∃ p1 u1, update_rewards p (some u) p.total_staked now = some (p1, some u1) ∧
      u1.balance_staked + amount ≤ U64MAX ∧
      now + p.lock_period ≤ U64MAX ∧
      p1.total_staked + amount ≤ U64MAX ∧
      p' = { p1 with total_staked := p1.total_staked + amount } ∧
      u'.balance_staked = u1.balance_staked + amount ∧
      u'.maturity_time = now + p.lock_period := by
  unfold stake at h
  split at h
  · cases h
  · split at h
    · cases h
    · rename_i hnz hpa
      split at h
      · rename_i xup p1 u1 hup
        split at h
        · cases h
        · rename_i xb bal hbal
          split at h
          · cases h
          · rename_i xm mat hmat
            dsimp only at h
            split at h
            · cases h
            · rename_i xt t2 ht2
              cases h
              obtain ⟨hbB, hbE⟩ := checkedAdd_eq_some.mp hbal
              obtain ⟨hmB, hmE⟩ := checkedAdd_eq_some.mp hmat
              obtain ⟨htB, htE⟩ := checkedAdd_eq_some.mp ht2
              subst hbE hmE htE
              refine ⟨fun h0 => hnz h0, by simpa using hpa,
                p1, u1, hup, hbB, hmB, htB, rfl, ?_, ?_⟩ <;>
                (dsimp only; split <;> rfl)
      · cases h

/-- Characterization of a successful `unstake`. -/
theorem unstake_ok_char {p : Pool} {u : User} {amount now : Nat}
    {p' : Pool} {u' : User} (h : unstake p u amount now = .ok (p', u')) :
    amount ≠ 0 ∧ u.maturity_time ≤ now ∧ amount ≤ u.balance_staked ∧
    ∃ p1 u1, update_rewards p (some u) p.total_staked now = some (p1, some u1) ∧
      amount ≤ u1.balance_staked ∧
      amount ≤ p1.total_staked ∧
      p' = { p1 with total_staked := p1.total_staked - amount } ∧
      u'.balance_staked = u1.balance_staked - amount := by
  unfold unstake at h
  split at h
  · cases h
  · split at h
    · cases h
    · split at h
      · cases h
      · rename_i hnz hm hb
        split at h
        · rename_i xup p1 u1 hup
          split at h
          · cases h
          · rename_i xb bal hbal
            dsimp only at h
            split at h
            · cases h
            · rename_i xt t2 ht2
              cases h
              obtain ⟨hbB, hbE⟩ := checkedSub_eq_some.mp hbal
              obtain ⟨htB, htE⟩ := checkedSub_eq_some.mp ht2
              subst hbE htE
              refine ⟨fun h0 => hnz h0, by omega, by omega,
                p1, u1, hup, hbB, htB, rfl, ?_⟩
              dsimp only
              split <;> rfl
        · cases h

/-- Characterization of a successful `claim`. -/
theorem claim_ok_char {p : Pool} {u : User} {vb now : Nat}
    {p' : Pool} {u' : User} {payout : Nat}
    (h : claim p u vb now = .ok (p', u', payout)) :
    u.maturity_time ≤ now ∧
    ∃ p1 u1, update_rewards p (some u) p.total_staked now = some (p1, some u1) ∧
      p' = p1 ∧ u'.balance_staked = u1.balance_staked ∧
      ((0 < u1.reward_per_token_pending ∧
          u' = { u1 with reward_per_token_pending := 0 } ∧
          payout = min vb u1.reward_per_token_pending) ∨
        (u1.reward_per_token_pending = 0 ∧ u' = u1 ∧ payout = 0)) := by
  unfold claim at h
  split at h
  · cases h
  · rename_i hm
    split at h
    · rename_i xup p1 u1 hup
      dsimp only at h
      split at h
      · rename_i hpos
        cases h
        refine ⟨by omega, _, _, hup, rfl, rfl, Or.inl ⟨hpos, rfl, ?_⟩⟩
        dsimp only
        split <;> omega
      · rename_i hpos
        cases h
        exact ⟨by omega, _, _, hup, rfl, rfl, Or.inr ⟨by omega, rfl, rfl⟩⟩
    · cases h

/-- Characterization of a successful `fund`: the funding schedule fields are
rewritten, every other pool field is kept, the accumulator does not
decrease, and the transferred amount is `amount` exactly when positive. -/
theorem fund_ok_char {p : Pool} {funder amount now : Nat}
    {p' : Pool} {tr : Nat} (h : fund p funder amount now = .ok (p', tr)) :
    p.paused = false ∧ (funder = p.authority ∨ funder ∈ p.funders) ∧
    p'.total_staked = p.total_staked ∧
    p'.user_stake_count = p.user_stake_count ∧
    p'.paused = p.paused ∧ p'.authority = p.authority ∧
    p'.funders = p.funders ∧ p'.reward_duration = p.reward_duration ∧
    p.reward_per_token_stored ≤ p'.reward_per_token_stored ∧
    tr = (if amount > 0 then amount else 0) := by
  unfold fund at h
  split at h
  · cases h
  · rename_i hpa
    split at h
    · rename_i hauth
      split at h
      · rename_i xup p1 uu hup
        obtain ⟨hau, hpp, hdur, hend, -, hrate, hcnt, htot, -, hfun, hrpts, -⟩ :=
          update_rewards_preserves hup
        dsimp only at h
        split at h
        · cases h
        · rename_i xr rate hrOpt
          split at h
          · cases h
          · rename_i xd dend hd
            cases h
            exact ⟨by simpa using hpa, hauth, htot, hcnt, hpp, hau, hfun,
              hdur, hrpts, rfl⟩
      · cases h
    · cases h

/-- C5: the `total_staked` update of `stake` and `unstake` aborts with an
arithmetic error on `u64` overflow/underflow instead of wrapping modulo
`2^64` (see `nativeAdd64`/`nativeSub64` for the spec-modelled overflow
profile), and on success moves `total_staked` by exactly `amount` within
`u64` range. -/
theorem C5_total_staked_arith (p : Pool) (u : User) (amount now : Nat)
    (h1 : amount ≠ 0) :
    (p.paused = false → U64MAX < p.total_staked + amount →
      stake p u amount now = .error Err.Arithmetic) ∧
    (∀ p' u', stake p u amount now = .ok (p', u') →
      p.total_staked + amount ≤ U64MAX ∧
      p'.total_staked = p.total_staked + amount) ∧
    (u.maturity_time ≤ now → amount ≤ u.balance_staked →
      p.total_staked < amount →
      unstake p u amount now = .error Err.Arithmetic) ∧
    (∀ p' u', unstake p u amount now = .ok (p', u') →
      amount ≤ p.total_staked ∧
      p'.total_staked = p.total_staked - amount) := by
  refine ⟨?_, ?_, ?_, ?_⟩
  · intro hp hov
    unfold stake
    rw [if_neg h1, if_neg (by simp [hp])]
    split
    · rename_i xup p1 u1 hup
      obtain ⟨-, -, -, -, -, -, -, htot, -, -, -, -⟩ :=
        update_rewards_preserves hup
      split
      · rfl
      · split
        · rfl
        · dsimp only
          split
          · rfl
          · rename_i xt t2 ht2
            obtain ⟨hb, -⟩ := checkedAdd_eq_some.mp ht2
            rw [htot] at hb
            exact absurd hb (by omega)
    · rfl
  · intro p' u' h
    obtain ⟨-, -, p1, u1, hup, -, -, htB, hpE, -, -⟩ := stake_ok_char h
    obtain ⟨-, -, -, -, -, -, -, htot, -, -, -, -⟩ :=
      update_rewards_preserves hup
    subst hpE
    rw [htot] at htB ⊢
    exact ⟨htB, rfl⟩
  · intro hmat hbal hund
    unfold unstake
    rw [if_neg h1, if_neg (by omega), if_neg (by omega)]
    split
    · rename_i xup p1 u1 hup
      obtain ⟨-, -, -, -, -, -, -, htot, -, -, -, -⟩ :=
        update_rewards_preserves hup
      split
      · rfl
      · dsimp only
        split
        · rfl
        · rename_i xt t2 ht2
          obtain ⟨hb, -⟩ := checkedSub_eq_some.mp ht2
          rw [htot] at hb
          exact absurd hb (by omega)
    · rfl
  · intro p' u' h
    obtain ⟨-, -, -, p1, u1, hup, -, htB, hpE, -⟩ := unstake_ok_char h
    obtain ⟨-, -, -, -, -, -, -, htot, -, -, -, -⟩ :=
      update_rewards_preserves hup
    subst hpE
    rw [htot] at htB ⊢
    exact ⟨htB, rfl⟩

theorem C5_total_staked_arith_witness :
    (1 : Nat) ≠ 0 ∧
    ((pC5.paused = false → U64MAX < pC5.total_staked + 1 →
      stake pC5 uC1 1 50 = .error Err.Arithmetic) ∧
    (∀ p' u', stake pC5 uC1 1 50 = .ok (p', u') →
      pC5.total_staked + 1 ≤ U64MAX ∧
      p'.total_staked = pC5.total_staked + 1) ∧
    (uC1.maturity_time ≤ 50 → 1 ≤ uC1.balance_staked →
      pC5.total_staked < 1 →
      unstake pC5 uC1 1 50 = .error Err.Arithmetic) ∧
    (∀ p' u', unstake pC5 uC1 1 50 = .ok (p', u') →
      1 ≤ pC5.total_staked ∧
      p'.total_staked = pC5.total_staked - 1)) :=
  ⟨by decide, C5_total_staked_arith pC5 uC1 1 50 (by decide)⟩

/-- C7: when the maturity check passes, the checkpoint succeeds, the
checkpointed pending reward is positive and the reward vault balance is
smaller than it, `claim` succeeds, pays out exactly the vault balance, and
zeroes the user's pending reward — it never fails merely because the vault
is under-funded. -/
theorem C7_claim_clamped (p : Pool) (u : User) (vb now : Nat)
    (p1 : Pool) (u1 : User)
    (hmat : u.maturity_time ≤ now)
    (hup : update_rewards p (some u) p.total_staked now = some (p1, some u1))
    (hpos : 0 < u1.reward_per_token_pending)
    (hvb : vb < u1.reward_per_token_pending) :
    claim p u vb now =
      .ok (p1, { u1 with reward_per_token_pending := 0 }, vb) := by
  unfold claim
  rw [if_neg (by omega : ¬u.maturity_time > now), hup]
  dsimp only
  rw [if_pos hpos, if_pos hvb]

theorem C7_claim_clamped_witness :
    claim pC7 uC7 300 50 =
      .ok ({ pC7 with last_update_time := 50, reward_per_token_stored := 0 },
        { uC7 with reward_per_token_pending := 0 }, 300) :=
  C7_claim_clamped pC7 uC7 300 50
    { pC7 with last_update_time := 50, reward_per_token_stored := 0 }
    uC7 (by decide) (by decide) (by decide) (by decide)

/-- C8: on a paused pool, `stake` (nonzero amount) and `fund` fail with
`PoolPaused`, while `unstake` (nonzero amount, matured, sufficient balance,
successful checkpoint arithmetic) and `claim` (matured, successful
checkpoint arithmetic) succeed — exits are not blocked by the pause. -/
theorem C8_pause_asymmetry (p : Pool) (u : User)
    (funder amount now vb : Nat) (hp : p.paused = true) :
    (amount ≠ 0 → stake p u amount now = .error Err.PoolPaused) ∧
    (fund p funder amount now = .error Err.PoolPaused) ∧
    (∀ p1 u1, amount ≠ 0 → u.maturity_time ≤ now →
      amount ≤ u.balance_staked → amount ≤ p.total_staked →
      update_rewards p (some u) p.total_staked now = some (p1, some u1) →
      ∃ p' u', unstake p u amount now = .ok (p', u')) ∧
    (∀ p1 u1, u.maturity_time ≤ now →
      update_rewards p (some u) p.total_staked now = some (p1, some u1) →
      ∃ p' u' r, claim p u vb now = .ok (p', u', r)) := by
  refine ⟨?_, ?_, ?_, ?_⟩
  · intro hnz
    unfold stake
    rw [if_neg hnz, if_pos hp]
  · unfold fund
    rw [if_pos hp]
  · intro p1 u1 hnz hmat hbal htot hup
    obtain ⟨-, -, -, -, -, -, -, htotE, -, -, -, hus⟩ :=
      update_rewards_preserves hup
    obtain ⟨u1', hu1E, hbalE, -, -⟩ := hus u rfl
    rw [hu1E] at hup
    cases hu1E
    unfold unstake
    rw [if_neg hnz, if_neg (by omega), if_neg (by omega), hup]
    dsimp only
    rw [checkedSub_eq_some.mpr ⟨by omega, rfl⟩]
    dsimp only
    rw [show nativeSub64 p1.total_staked amount
        = some (p1.total_staked - amount) from
      checkedSub_eq_some.mpr ⟨by omega, rfl⟩]
    exact ⟨_, _, rfl⟩
  · intro p1 u1 hmat hup
    unfold claim
    rw [if_neg (by omega : ¬u.maturity_time > now), hup]
    dsimp only
    by_cases hpd : u1.reward_per_token_pending > 0
    · rw [if_pos hpd]
      exact ⟨_, _, _, rfl⟩
    · rw [if_neg hpd]
      exact ⟨_, _, _, rfl⟩

theorem C8_pause_asymmetry_witness :
    pC8.paused = true ∧
    ((1 ≠ 0 → stake pC8 uC1 1 50 = .error Err.PoolPaused) ∧
    (fund pC8 1 7 50 = .error Err.PoolPaused) ∧
    (∀ p1 u1, 1 ≠ 0 → uC1.maturity_time ≤ 50 →
      1 ≤ uC1.balance_staked → 1 ≤ pC8.total_staked →
      update_rewards pC8 (some uC1) pC8.total_staked 50 = some (p1, some u1) →
      ∃ p' u', unstake pC8 uC1 1 50 = .ok (p', u')) ∧
    (∀ p1 u1, uC1.maturity_time ≤ 50 →
      update_rewards pC8 (some uC1) pC8.total_staked 50 = some (p1, some u1) →
      ∃ p' u' r, claim pC8 uC1 300 50 = .ok (p', u', r))) :=
  ⟨rfl, C8_pause_asymmetry pC8 uC1 1 1 50 300 rfl⟩

/-- C9: a successful `stake` at time `t` sets
`maturity_time = t + lock_period`, and for a nonzero amount `unstake` fails
with the maturity error exactly when `now` is strictly before
`maturity_time` (the boundary instant `now = maturity_time` passes the
check). -/
theorem C9_unstake_maturity_boundary (p : Pool) (u : User)
    (amount t now : Nat) :
    (∀ p' u', stake p u amount t = .ok (p', u') →
      u'.maturity_time = t + p.lock_period) ∧
    (amount ≠ 0 →
      (unstake p u amount now = .error Err.CannotStakeOrClaimBeforeMaturity ↔
        now < u.maturity_time)) := by
  constructor
  · intro p' u' h
    obtain ⟨-, -, p1, u1, -, -, -, -, -, -, hmatE⟩ := stake_ok_char h
    exact hmatE
  · intro hnz
    constructor
    · intro h
      by_contra hge
      rw [not_lt] at hge
      unfold unstake at h
      rw [if_neg hnz, if_neg (by omega)] at h
      split at h
      · exact absurd h (by simp)
      · split at h
        · rename_i xup p1 u1 hup
          split at h
          · exact absurd h (by simp)
          · dsimp only at h
            split at h
            · exact absurd h (by simp)
            · exact absurd h (by simp)
        · exact absurd h (by simp)
    · intro hlt
      unfold unstake
      rw [if_neg hnz, if_pos (by omega : u.maturity_time > now)]

theorem C9_unstake_maturity_boundary_witness :
    ((1 : Nat) ≠ 0) ∧
    ((∀ p' u', stake pC1 uC1 1 0 = .ok (p', u') →
      u'.maturity_time = 0 + pC1.lock_period) ∧
    (unstake { pC1 with lock_period := 100 }
        { uC1 with maturity_time := 100 } 1 99
      = .error Err.CannotStakeOrClaimBeforeMaturity ↔
        99 < ({ uC1 with maturity_time := 100 } : User).maturity_time)) :=
  ⟨by decide,
    (C9_unstake_maturity_boundary pC1 uC1 1 0 99).1,
    (C9_unstake_maturity_boundary { pC1 with lock_period := 100 }
      { uC1 with maturity_time := 100 } 1 0 99).2 (by decide)⟩

/-- C10: `fund` with `amount = 0` by an authorized funder on an unpaused
pool with an active epoch (and non-overflowing schedule arithmetic)
succeeds, transfers nothing, dilutes the rate to
`(reward_duration_end - now) * reward_rate / reward_duration` — weakly
smaller than the old rate when the epoch end is within one duration of
`now` — and resets `last_update_time = now`,
`reward_duration_end = now + reward_duration`. -/
theorem C10_fund_zero_amount (p : Pool) (funder now : Nat)
    (p1 : Pool) (uu : Option User)
    (hp : p.paused = false)
    (hauth : funder = p.authority ∨ funder ∈ p.funders)
    (hup : update_rewards p none p.total_staked now = some (p1, uu))
    (hactive : now < p.reward_duration_end)
    (hmul : (p.reward_duration_end - now) * p.reward_rate ≤ U64MAX)
    (hend64 : now + p.reward_duration ≤ U64MAX)
    (hmono : p.reward_duration_end ≤ now + p.reward_duration)
    (hdur : p.reward_duration ≠ 0) :
    fund p funder 0 now = .ok ({ p1 with
      reward_rate :=
        (p.reward_duration_end - now) * p.reward_rate / p.reward_duration,
      last_update_time := now,
      reward_duration_end := now + p.reward_duration }, 0) ∧
    (p.reward_duration_end - now) * p.reward_rate / p.reward_duration
      ≤ p.reward_rate := by
  obtain ⟨-, -, hdurE, hendE, -, hrateE, -, -, -, -, -, -⟩ :=
    update_rewards_preserves hup
  constructor
  · unfold fund
    rw [if_neg (by simp [hp]), if_pos hauth, hup]
    dsimp only
    rw [if_neg (by omega : ¬now ≥ p1.reward_duration_end)]
    rw [hendE, hrateE, hdurE]
    rw [checkedSub_eq_some.mpr ⟨by omega, rfl⟩]
    dsimp only
    rw [checkedMul_eq_some.mpr ⟨hmul, rfl⟩]
    dsimp only
    rw [checkedAdd_eq_some.mpr ⟨by omega, rfl⟩]
    dsimp only
    rw [checkedDiv_eq_some.mpr ⟨hdur, rfl⟩]
    rw [checkedAdd_eq_some.mpr ⟨hend64, rfl⟩]
    dsimp only
    rw [Nat.zero_add]
    simp
  · calc (p.reward_duration_end - now) * p.reward_rate / p.reward_duration
        ≤ p.reward_duration * p.reward_rate / p.reward_duration :=
          Nat.div_le_div_right (Nat.mul_le_mul_right _ (by omega))
      _ = p.reward_rate :=
          Nat.mul_div_cancel_left _ (Nat.pos_of_ne_zero hdur)

theorem C10_fund_zero_amount_witness :
    (fund pC10 1 0 10000 = .ok ({ pC10 with
      reward_per_token_stored := 2000 * PRECISION,
      reward_rate :=
        (pC10.reward_duration_end - 10000) * pC10.reward_rate
          / pC10.reward_duration,
      last_update_time := 10000,
      reward_duration_end := 10000 + pC10.reward_duration }, 0) ∧
    (pC10.reward_duration_end - 10000) * pC10.reward_rate
        / pC10.reward_duration ≤ pC10.reward_rate) :=
  C10_fund_zero_amount pC10 1 10000
    { pC10 with reward_per_token_stored := 2000 * PRECISION,
                last_update_time := 10000 }
    none rfl (Or.inl rfl) (by decide) (by decide) (by decide) (by decide)
    (by decide) (by decide)

theorem sumBalances_cons (o : Nat) (u : User) (l : List (Nat × User)) :
    sumBalances ((o, u) :: l) = u.balance_staked + sumBalances l := by
  simp [sumBalances]

theorem sumBalances_append (l1 l2 : List (Nat × User)) :
    sumBalances (l1 ++ l2) = sumBalances l1 + sumBalances l2 := by
  simp [sumBalances]

/-- A successful `initialize_pool` produces the zeroed pool record. -/
theorem initialize_pool_ok {authority rd lp : Nat} {nt : Bool} {p : Pool}
    (h : initialize_pool authority rd lp nt = .ok p) :
    p.total_staked = 0 ∧ p.reward_per_token_stored = 0 := by
  unfold initialize_pool at h
  split at h
  · cases h
  · cases h
    exact ⟨rfl, rfl⟩

/-- A successful `create_user` leaves `total_staked` and the accumulator
unchanged and returns a user with zero balance. -/
theorem create_user_ok {p : Pool} {p' : Pool} {u : User}
    (h : create_user p = .ok (p', u)) :
    p'.total_staked = p.total_staked ∧
    p'.reward_per_token_stored = p.reward_per_token_stored ∧
    u.balance_staked = 0 := by
  unfold create_user at h
  split at h
  · cases h
  · split at h
    · cases h
    · cases h
      exact ⟨rfl, rfl, rfl⟩

/-- A successful `pause` only flips the `paused` flag. -/
theorem pause_ok {p : Pool} {now : Nat} {p' : Pool}
    (h : pause p now = .ok p') :
    p'.total_staked = p.total_staked ∧
    p'.reward_per_token_stored = p.reward_per_token_stored := by
  unfold pause at h
  split at h
  · cases h
  · split at h
    · cases h
      exact ⟨rfl, rfl⟩
    · cases h

/-- A successful `unpause` only flips the `paused` flag. -/
theorem unpause_ok {p : Pool} {p' : Pool} (h : unpause p = .ok p') :
    p'.total_staked = p.total_staked ∧
    p'.reward_per_token_stored = p.reward_per_token_stored := by
  unfold unpause at h
  split at h
  · cases h
    exact ⟨rfl, rfl⟩
  · cases h

/-- A successful `authorize_funder` only rewrites the funder list. -/
theorem authorize_funder_ok {p : Pool} {cand : Nat} {p' : Pool}
    (h : authorize_funder p cand = .ok p') :
    p'.total_staked = p.total_staked ∧
    p'.reward_per_token_stored = p.reward_per_token_stored := by
  unfold authorize_funder at h
  split at h
  · cases h
  · split at h
    · cases h
    · split at h
      · cases h
        exact ⟨rfl, rfl⟩
      · cases h

/-- A successful `deauthorize_funder` only rewrites the funder list. -/
theorem deauthorize_funder_ok {p : Pool} {cand : Nat} {p' : Pool}
    (h : deauthorize_funder p cand = .ok p') :
    p'.total_staked = p.total_staked ∧
    p'.reward_per_token_stored = p.reward_per_token_stored := by
  unfold deauthorize_funder at h
  split at h
  · cases h
  · split at h
    · cases h
      exact ⟨rfl, rfl⟩
    · cases h

/-- A successful `close_user` requires a zero balance and only decrements
the user counter. -/
theorem close_user_ok {p : Pool} {u : User} {p' : Pool}
    (h : close_user p u = .ok p') :
    u.balance_staked = 0 ∧
    p'.total_staked = p.total_staked ∧
    p'.reward_per_token_stored = p.reward_per_token_stored := by
  unfold close_user at h
  split at h
  · rename_i hcon
    split at h
    · cases h
    · cases h
      exact ⟨hcon.1, rfl, rfl⟩
  · cases h

/-- C2: in every state reachable from a freshly initialized pool by any
sequence of the entry-point operations, the sum of `balance_staked` over the
open user records equals the pool's `total_staked`. -/
theorem C2_total_staked_invariant (s : GState) (h : Reachable s) :
    sumBalances s.users = s.pool.total_staked := by
  induction h with
  | init a rd lp nt p hinit =>
    have := (initialize_pool_ok hinit).1
    simpa [sumBalances] using this.symm
  | step s s' hs hstep ih =>
    cases hstep with
    | createUserStep owner p' u hc hfresh hop =>
      obtain ⟨ht, -, hb⟩ := create_user_ok hop
      simp only [sumBalances_cons, hb, ht]
      simpa using ih
    | pauseStep now p' hc hop =>
      rw [(pause_ok hop).1] at *
      exact ih
    | unpauseStep p' hc hop =>
      rw [(unpause_ok hop).1] at *
      exact ih
    | stakeStep owner amount now l1 l2 u p' u' hc hu hop =>
      obtain ⟨-, -, p1, u1, hup, -, -, -, hpE, hbE, -⟩ := stake_ok_char hop
      obtain ⟨-, -, -, -, -, -, -, htot, -, -, -, hus⟩ :=
        update_rewards_preserves hup
      obtain ⟨u1', hu1E, hbalE, -, -⟩ := hus u rfl
      cases hu1E
      rw [hu] at ih
      rw [sumBalances_append, sumBalances_cons] at ih ⊢
      subst hpE
      show _ = p1.total_staked + amount
      rw [htot] at *
      rw [hbE, hbalE]
      omega
    | unstakeStep owner amount now l1 l2 u p' u' hc hu hop =>
      obtain ⟨-, -, -, p1, u1, hup, hble, -, hpE, hbE⟩ := unstake_ok_char hop
      obtain ⟨-, -, -, -, -, -, -, htot, -, -, -, hus⟩ :=
        update_rewards_preserves hup
      obtain ⟨u1', hu1E, hbalE, -, -⟩ := hus u rfl
      cases hu1E
      rw [hu] at ih
      rw [sumBalances_append, sumBalances_cons] at ih ⊢
      subst hpE
      show _ = p1.total_staked - amount
      rw [htot] at *
      rw [hbE, hbalE]
      rw [hbalE] at hble
      omega
    | claimStep owner vb now payout l1 l2 u p' u' hc hu hop =>
      obtain ⟨-, p1, u1, hup, hpE, hbE, -⟩ := claim_ok_char hop
      obtain ⟨-, -, -, -, -, -, -, htot, -, -, -, hus⟩ :=
        update_rewards_preserves hup
      obtain ⟨u1', hu1E, hbalE, -, -⟩ := hus u rfl
      cases hu1E
      rw [hu] at ih
      rw [sumBalances_append, sumBalances_cons] at ih ⊢
      subst hpE
      rw [htot] at *
      rw [hbE, hbalE]
      omega
    | authorizeFunderStep cand p' hc hop =>
      rw [(authorize_funder_ok hop).1] at *
      exact ih
    | deauthorizeFunderStep cand p' hc hop =>
      rw [(deauthorize_funder_ok hop).1] at *
      exact ih
    | fundStep funder amount now tr p' hc hop =>
      obtain ⟨-, -, htot, -⟩ := fund_ok_char hop
      rw [htot] at *
      exact ih
    | closeUserStep owner l1 l2 u p' hc hu hop =>
      obtain ⟨hb0, htot, -⟩ := close_user_ok hop
      rw [hu] at ih
      rw [sumBalances_append, sumBalances_cons] at ih
      rw [sumBalances_append]
      rw [htot] at *
      omega
    | closePoolStep now hc hop =>
      exact ih

theorem C2_total_staked_invariant_witness :
    sumBalances (([] : List (Nat × User))) = pInit.total_staked :=
  C2_total_staked_invariant ⟨pInit, [], false⟩
    (Reachable.init 1 86400 100 false pInit rfl)

/-- C3: no entry-point operation ever decreases
`pool.reward_per_token_stored` — in particular no checkpoint does. -/
theorem C3_rpts_monotone (s s' : GState) (h : Step s s') :
    s.pool.reward_per_token_stored ≤ s'.pool.reward_per_token_stored := by
  cases h with
  | createUserStep owner p' u hc hfresh hop =>
    exact (create_user_ok hop).2.1.symm.le
  | pauseStep now p' hc hop =>
    exact (pause_ok hop).2.symm.le
  | unpauseStep p' hc hop =>
    exact (unpause_ok hop).2.symm.le
  | stakeStep owner amount now l1 l2 u p' u' hc hu hop =>
    obtain ⟨-, -, p1, u1, hup, -, -, -, hpE, -, -⟩ := stake_ok_char hop
    obtain ⟨-, -, -, -, -, -, -, -, -, -, hrpts, -⟩ :=
      update_rewards_preserves hup
    subst hpE
    exact hrpts
  | unstakeStep owner amount now l1 l2 u p' u' hc hu hop =>
    obtain ⟨-, -, -, p1, u1, hup, -, -, hpE, -⟩ := unstake_ok_char hop
    obtain ⟨-, -, -, -, -, -, -, -, -, -, hrpts, -⟩ :=
      update_rewards_preserves hup
    subst hpE
    exact hrpts
  | claimStep owner vb now payout l1 l2 u p' u' hc hu hop =>
    obtain ⟨-, p1, u1, hup, hpE, -, -⟩ := claim_ok_char hop
    obtain ⟨-, -, -, -, -, -, -, -, -, -, hrpts, -⟩ :=
      update_rewards_preserves hup
    subst hpE
    exact hrpts
  | authorizeFunderStep cand p' hc hop =>
    exact (authorize_funder_ok hop).2.symm.le
  | deauthorizeFunderStep cand p' hc hop =>
    exact (deauthorize_funder_ok hop).2.symm.le
  | fundStep funder amount now tr p' hc hop =>
    obtain ⟨-, -, -, -, -, -, -, -, hrpts, -⟩ := fund_ok_char hop
    exact hrpts
  | closeUserStep owner l1 l2 u p' hc hu hop =>
    exact (close_user_ok hop).2.2.symm.le
  | closePoolStep now hc hop =>
    exact le_refl _

theorem C3_rpts_monotone_witness :
    (⟨pC1, [], false⟩ : GState).pool.reward_per_token_stored ≤
      (⟨{ pC1 with paused := true }, [], false⟩ : GState).pool.reward_per_token_stored :=
  C3_rpts_monotone ⟨pC1, [], false⟩ ⟨{ pC1 with paused := true }, [], false⟩
    (Step.pauseStep ⟨pC1, [], false⟩ 200 { pC1 with paused := true } rfl rfl)

end Staking

